import Mathlib

/-!
Verification development for the VW RTO verification pipeline
(`src/app.py`): a shallow embedding of the text normalizer, name matcher,
fact extractor (`parse_document_data`), record joiner (the pandas merge),
decision engine (`analyze_row`) and report assembler, together with
theorems settling the specification's claims about them.

Modelling conventions:
* Python strings are `String` / `List Char`.  The ASCII fragments of
  Python's regex classes `\w`, `\s`, of `str.lower()` and `str.strip()`
  are modelled explicitly (`pyWordChar`, `pyWs`, `pyToLower`,
  `stripList`); the documents handled by the program are ASCII text.
* Python `None`, the float `nan` that pandas fills into the columns of a
  row whose left join found no match, and strings are modelled by
  `PyVal`; Python truthiness by `pyTruthy` (note `bool(nan) = True`).
* `matches / len(doc_tokens) >= 0.5` over IEEE doubles is modelled as
  `len(doc_tokens) ≤ 2 * matches`: both operands are small naturals and
  0.5 is exactly representable, so the float test and the integer test
  agree.
* The Streamlit UI, PDF text extraction and Excel file IO are outside
  the model: `runPipeline` takes the extracted text blob of each
  document and the spreadsheet (headers plus rows of header/value
  pairs), exactly the data the core of `app.py` operates on.
* `re.search` is modelled by scanning match positions left to right and,
  at each position, trying the pattern's alternatives and greedy
  quantifier lengths in Python's backtracking order.
-/

namespace RTO

/-! ### Character classes (ASCII models of Python's `\w`, `\s`, `lower`) -/

/-- Letters `A`–`Z`. -/
def isUpperAZ (c : Char) : Bool := 65 ≤ c.toNat && c.toNat ≤ 90

/-- Letters `a`–`z`. -/
def isLowerAZ (c : Char) : Bool := 97 ≤ c.toNat && c.toNat ≤ 122

/-- Digits `0`–`9`. -/
def isDigit09 (c : Char) : Bool := 48 ≤ c.toNat && c.toNat ≤ 57

/-- Letters `A`–`Z` or `a`–`z` (regex `[A-Za-z]`). -/
def isAlphaAZ (c : Char) : Bool := isUpperAZ c || isLowerAZ c

/-- ASCII model of the regex class `\w`. -/
def pyWordChar (c : Char) : Bool := isAlphaAZ c || isDigit09 c || c == '_'

/-- ASCII model of the regex class `\s` / the characters removed by
Python's `str.strip()`. -/
def pyWs (c : Char) : Bool :=
  c == ' ' || c == '\t' || c == '\n' || c == '\r' || c == '\x0b' || c == '\x0c'

/-- ASCII model of Python's `str.lower()`, character-wise. -/
def pyToLower (c : Char) : Char :=
  if isUpperAZ c then Char.ofNat (c.toNat + 32) else c

/-- Model of `str.strip()`: drop surrounding whitespace. -/
def stripList (l : List Char) : List Char :=
  ((l.dropWhile pyWs).reverse.dropWhile pyWs).reverse

/-- Model of `str.strip()` on `String`. -/
def pyStripStr (s : String) : String := String.mk (stripList s.data)

/-- Model of `str.lower()` on `String`. -/
def pyLowerStr (s : String) : String := String.mk (s.data.map pyToLower)

/-- Model of `str.lower().strip()`, as used for column-name comparison. -/
def pyLowerStrip (s : String) : String := pyStripStr (pyLowerStr s)

/-! ### `normalize_text` (app.py lines 14–17) -/

/-- Model of `re.sub(r'[^\w\s]', ' ', text)`, character-wise: every character
that is neither a word character nor whitespace becomes a single space. -/
def subNonWord (c : Char) : Char :=
  if pyWordChar c || pyWs c then c else ' '

/-- Model of `normalize_text`: empty input yields `""`; otherwise substitute
non-word non-space characters by spaces, lowercase, and strip. -/
def normalize_text (s : String) : String :=
  if s == "" then ""
  else String.mk (stripList ((s.data.map subNonWord).map pyToLower))

/-- Python's `str.split()` with no argument: split on runs of whitespace,
discarding empty pieces.  `acc` holds the characters of the token being
built, in reverse. -/
def splitWsAcc (acc : List Char) : List Char → List (List Char)
  | [] => if acc.isEmpty then [] else [acc.reverse]
  | c :: r =>
    if pyWs c then
      if acc.isEmpty then splitWsAcc [] r else acc.reverse :: splitWsAcc [] r
    else splitWsAcc (c :: acc) r

/-- Model of `str.split()` on a `String`. -/
def pySplit (s : String) : List (List Char) := splitWsAcc [] s.data

/-! ### `check_name_match` (app.py lines 19–45) -/

/-- The token list a name contributes to `check_name_match`:
`normalize_text(name).split()`. -/
def nameTokens (s : String) : List (List Char) := pySplit (normalize_text s)

/-- The `for doc_word in doc_tokens` loop of `check_name_match`: a
document token counts as matched if it occurs verbatim among the excel
tokens, or, when it is a single character, if some excel token starts
with that character. -/
def matchLoop (excel_tokens : List (List Char)) : List (List Char) → Nat
  | [] => 0
  | w :: ws =>
    (if excel_tokens.contains w then 1
     else if w.length == 1 && excel_tokens.any (fun t => t.take 1 == w) then 1
     else 0)
      + matchLoop excel_tokens ws

/-- The body of `check_name_match` after the truthiness guard.  The float
test `matches / len(doc_tokens) >= 0.5` is modelled by
`len(doc_tokens) ≤ 2 * matches` (see the header comment). -/
def nameMatchCore (excel_name doc_name : String) : Bool :=
  let excel_tokens := nameTokens excel_name
  let doc_tokens := nameTokens doc_name
  if 0 < doc_tokens.length ∧ doc_tokens.length ≤ 2 * matchLoop excel_tokens doc_tokens
  then true else false

/-! ### Python values with pandas `nan` (for the merged frame) -/

/-- A Python value as it appears in a cell of the merged data frame: a
string, `None`, or the float `nan` that `pd.merge(..., how='left')`
fills in for a row with no identifier match. -/
inductive PyVal where
  | vStr : String → PyVal
  | vNone : PyVal
  | vNan : PyVal
deriving DecidableEq, Repr

/-- Python truthiness.  `bool(nan)` is `True`. -/
def pyTruthy : PyVal → Bool
  | .vStr s => !(s == "")
  | .vNone => false
  | .vNan => true

/-- Python `str(...)` of a value: `str(nan) = "nan"`, `str(None) = "None"`. -/
def pyStr : PyVal → String
  | .vStr s => s
  | .vNone => "None"
  | .vNan => "nan"

/-- Python `value == "literal"` for such a value: only equal strings
compare equal; `nan == s` and `None == s` are `False`. -/
def pyEqStr (v : PyVal) (t : String) : Bool :=
  match v with
  | .vStr s => s == t
  | _ => false

/-- Model of `check_name_match(excel_name, doc_name)` on Python values: returns
`False` when either argument is falsy, otherwise compares the token
lists of `str(...)` of the two values. -/
def check_name_match_v (excel_name doc_name : PyVal) : Bool :=
  if !(pyTruthy doc_name) || !(pyTruthy excel_name) then false
  else nameMatchCore (pyStr excel_name) (pyStr doc_name)

/-- Coercion taking `None ↦ None`, `some s ↦ s`. -/
def optToVal : Option String → PyVal
  | none => .vNone
  | some s => .vStr s

/-- Model of `check_name_match` on optional strings (string-or-`None` arguments,
the shape used by the fallback scan over extracted facts). -/
def check_name_match (excel_name doc_name : Option String) : Bool :=
  check_name_match_v (optToVal excel_name) (optToVal doc_name)

example : check_name_match (some "John Smith") (some "J Smith") = true := by decide
example : check_name_match (some "John Smith") (some "X Smith") = true := by decide
example : check_name_match (some "John Smith") (some "Bob Stone") = false := by decide
example : check_name_match (some "!") (some "!") = false := by decide
example : normalize_text " Ab,c " = "ab c" := by decide

/-! ### Regex machinery for `parse_document_data` (app.py lines 73–136) -/

/-- A regex word boundary `\b` before a word character: satisfied at the
start of the text or after a non-word character. -/
def boundaryBefore (prev : Option Char) : Bool :=
  match prev with
  | none => true
  | some c => !(pyWordChar c)

/-- Boundary `\b` after the last matched character: satisfied at the end of the
text or before a non-word character. -/
def boundaryAfter (l : List Char) : Bool :=
  match l with
  | [] => true
  | c :: _ => !(pyWordChar c)

/-- Consume exactly `n` characters satisfying `p`, returning them and the
rest. -/
def grabP (p : Char → Bool) : Nat → List Char → Option (List Char × List Char)
  | 0, l => some ([], l)
  | _ + 1, [] => none
  | n + 1, c :: r =>
    if p c then
      match grabP p n r with
      | some (t, rest) => some (c :: t, rest)
      | none => none
    else none

/-- Case-insensitive literal match at the head of the text; the pattern
is given in lower case. -/
def startsWithCI : List Char → List Char → Bool
  | [], _ => true
  | _ :: _, [] => false
  | p :: ps, c :: cs => p == pyToLower c && startsWithCI ps cs

/-- Scan match positions left to right, returning the first position at
which `f` yields a match (the leftmost-match rule of `re.search`). -/
def scanFirst (f : List Char → Option (List Char)) : List Char → Option (List Char)
  | [] => f []
  | c :: r =>
    match f (c :: r) with
    | some m => some m
    | none => scanFirst f r

/-- Boolean variant of `scanFirst`. -/
def scanAny (f : List Char → Bool) : List Char → Bool
  | [] => f []
  | c :: r => f (c :: r) || scanAny f r

/-- The standard plate pattern `[A-Z]{2}[0-9]{1,2}[A-Z]{1,3}[0-9]{4}`
tried at one position with quantifier lengths `d` (digits) and `a`
(letters); the trailing `\b` is checked on the rest. -/
def permTryDA (l : List Char) (d a : Nat) : Option (List Char) :=
  match grabP isUpperAZ 2 l with
  | none => none
  | some (u1, r1) =>
    match grabP isDigit09 d r1 with
    | none => none
    | some (g1, r2) =>
      match grabP isUpperAZ a r2 with
      | none => none
      | some (u2, r3) =>
        match grabP isDigit09 4 r3 with
        | none => none
        | some (g2, r4) =>
          if boundaryAfter r4 then some (u1 ++ g1 ++ u2 ++ g2) else none

/-- One position of `\b[A-Z]{2}[0-9]{1,2}[A-Z]{1,3}[0-9]{4}\b`: greedy
quantifiers are tried in Python's backtracking order. -/
def permAt (l : List Char) : Option (List Char) :=
  (permTryDA l 2 3).orElse fun _ =>
    (permTryDA l 2 2).orElse fun _ =>
      (permTryDA l 2 1).orElse fun _ =>
        (permTryDA l 1 3).orElse fun _ =>
          (permTryDA l 1 2).orElse fun _ => permTryDA l 1 1

/-- The BH-series pattern `[0-9]{2}BH[0-9]{4}[A-Z]{1,2}` tried at one
position with trailing-letter count `a`. -/
def bhTryA (l : List Char) (a : Nat) : Option (List Char) :=
  match grabP isDigit09 2 l with
  | none => none
  | some (g1, r1) =>
    match r1 with
    | 'B' :: 'H' :: r2 =>
      match grabP isDigit09 4 r2 with
      | none => none
      | some (g2, r3) =>
        match grabP isUpperAZ a r3 with
        | none => none
        | some (u, r4) =>
          if boundaryAfter r4 then some (g1 ++ 'B' :: 'H' :: g2 ++ u) else none
    | _ => none

/-- One position of `\b[0-9]{2}BH[0-9]{4}[A-Z]{1,2}\b`. -/
def bhAt (l : List Char) : Option (List Char) :=
  (bhTryA l 2).orElse fun _ => bhTryA l 1

/-- Scan for a pattern whose first character is a word character and
which therefore needs `\b` to hold before the match position. -/
def scanBounded (f : List Char → Option (List Char)) :
    Option Char → List Char → Option (List Char)
  | _, [] => none
  | prev, c :: r =>
    match (if boundaryBefore prev then f (c :: r) else none) with
    | some m => some m
    | none => scanBounded f (some c) r

/-- Model of `re.search` of the standard plate pattern. -/
def searchPerm (l : List Char) : Option (List Char) := scanBounded permAt none l

/-- Model of `re.search` of the BH-series plate pattern. -/
def searchBh (l : List Char) : Option (List Char) := scanBounded bhAt none l

/-- Model of `re.search(perm_pattern, text) or re.search(bh_pattern, text)`. -/
def searchVehicle (l : List Char) : Option (List Char) :=
  (searchPerm l).orElse fun _ => searchBh l

/-- A character of the VIN alphabet `[A-HJ-NPR-Z0-9]` (upper-case letters
without I, O, Q, plus digits). -/
def vinChar (c : Char) : Bool :=
  isDigit09 c || (isUpperAZ c && !(c == 'I' || c == 'O' || c == 'Q'))

/-- One position of `\b[A-HJ-NPR-Z0-9]{17}\b`. -/
def chassisAt (l : List Char) : Option (List Char) :=
  match grabP vinChar 17 l with
  | none => none
  | some (t, r) => if boundaryAfter r then some t else none

/-- Model of `re.search` of the chassis pattern. -/
def searchChassis (l : List Char) : Option (List Char) := scanBounded chassisAt none l

/-- Pattern `(temporary\s*registration|temp\s*regn)` at one position (the
continuations start with a non-whitespace letter, so the greedy `\s*` is
equivalent to dropping all whitespace). -/
def tempKeywordAt (l : List Char) : Bool :=
  (startsWithCI "temporary".data l &&
    startsWithCI "registration".data ((l.drop 9).dropWhile pyWs)) ||
  (startsWithCI "temp".data l &&
    startsWithCI "regn".data ((l.drop 4).dropWhile pyWs))

/-- Case-insensitive search for the temporary-registration keyword. -/
def has_temp_keyword (l : List Char) : Bool := scanAny tempKeywordAt l

/-- Model of `"new" in text.lower()`. -/
def containsNew (l : List Char) : Bool := scanAny (startsWithCI "new".data) l

/-! #### Customer-name capture
`(?:Received From|Customer Name|Name|Mr\.|Ms\.)[:\s\.]*([A-Za-z\s\.]+)`,
case-insensitive.  After the label, the greedy `[:\s\.]*` run may give
characters back to the capture group `[A-Za-z\s\.]+` (which needs at
least one character); a given-back character must itself lie in the
capture class, i.e. not be `:`. -/

/-- The star class `[:\s\.]`. -/
def nameStarClass (c : Char) : Bool := c == ':' || pyWs c || c == '.'

/-- The capture class `[A-Za-z\s\.]`. -/
def nameCapClass (c : Char) : Bool := isAlphaAZ c || pyWs c || c == '.'

/-- Backtracking of the greedy `[:\s\.]*`: give back characters from the
end of its run (`s1rev` is the run reversed) until one lies in the
capture class, then capture greedily from there. -/
def giveBack : List Char → List Char → Option (List Char)
  | [], _ => none
  | c :: s, tail =>
    if nameCapClass c then some ((c :: tail).takeWhile nameCapClass)
    else giveBack s (c :: tail)

/-- Pattern `[:\s\.]*([A-Za-z\s\.]+)` at the position just after a matched label. -/
def capAfterLabel (rest : List Char) : Option (List Char) :=
  let s1 := rest.takeWhile nameStarClass
  let rem := rest.dropWhile nameStarClass
  match rem with
  | c :: _ => if isAlphaAZ c then some (rem.takeWhile nameCapClass) else giveBack s1.reverse rem
  | [] => giveBack s1.reverse []

/-- The label alternatives, in the pattern's order. -/
def nameLabels : List (List Char) :=
  ["received from".data, "customer name".data, "name".data, "mr.".data, "ms.".data]

/-- One position of the customer-name pattern: try each label
alternative in order; on a label match attempt the star/capture suffix,
otherwise fall through to the next alternative. -/
def nameAt (l : List Char) : Option (List Char) :=
  nameLabels.findSome? fun lab =>
    if startsWithCI lab l then capAfterLabel (l.drop lab.length) else none

/-- Model of `re.search` of the customer-name pattern (no `\b`, so every position
is eligible). -/
def searchName (l : List Char) : Option (List Char) := scanFirst nameAt l

/-- Model of `" ".join(raw_name.split()[:4])`. -/
def first4Tokens (raw : List Char) : String :=
  String.intercalate " " (((splitWsAcc [] raw).take 4).map String.mk)

/-! #### Date capture -/

/-- A separator of the numeric date pattern: dash or slash. -/
def dateSepNum (c : Char) : Bool := c == '-' || c == '/'

/-- A separator of the textual date pattern: `[-\s]`. -/
def dateSepTxt (c : Char) : Bool := c == '-' || pyWs c

/-- The numeric date pattern (two digits, dash-or-slash, two digits,
dash-or-slash, four digits) at one position. -/
def dateNumAt : List Char → Option (List Char)
  | d1 :: d2 :: s1 :: d3 :: d4 :: s2 :: y1 :: y2 :: y3 :: y4 :: _ =>
    if isDigit09 d1 && isDigit09 d2 && dateSepNum s1 && isDigit09 d3 &&
        isDigit09 d4 && dateSepNum s2 && isDigit09 y1 && isDigit09 y2 &&
        isDigit09 y3 && isDigit09 y4
    then some [d1, d2, s1, d3, d4, s2, y1, y2, y3, y4]
    else none
  | _ => none

/-- The one-digit-day alternative of the textual date pattern. -/
def dateTxt1 : List Char → Option (List Char)
  | d1 :: s1 :: m1 :: m2 :: m3 :: s2 :: y1 :: y2 :: y3 :: y4 :: _ =>
    if isDigit09 d1 && dateSepTxt s1 && isAlphaAZ m1 && isAlphaAZ m2 &&
        isAlphaAZ m3 && dateSepTxt s2 && isDigit09 y1 && isDigit09 y2 &&
        isDigit09 y3 && isDigit09 y4
    then some [d1, s1, m1, m2, m3, s2, y1, y2, y3, y4]
    else none
  | _ => none

/-- Pattern `\d{1,2}[-\s][A-Za-z]{3}[-\s]\d{4}` at one position; the greedy
`\d{1,2}` tries two digits before one. -/
def dateTxtAt (l : List Char) : Option (List Char) :=
  match l with
  | d1 :: d2 :: s1 :: m1 :: m2 :: m3 :: s2 :: y1 :: y2 :: y3 :: y4 :: _ =>
    if isDigit09 d1 && isDigit09 d2 && dateSepTxt s1 && isAlphaAZ m1 &&
        isAlphaAZ m2 && isAlphaAZ m3 && dateSepTxt s2 && isDigit09 y1 &&
        isDigit09 y2 && isDigit09 y3 && isDigit09 y4
    then some [d1, d2, s1, m1, m2, m3, s2, y1, y2, y3, y4]
    else dateTxt1 l
  | _ => dateTxt1 l

/-- The combined date pattern `(?:numeric|textual)` at one position. -/
def dateAt (l : List Char) : Option (List Char) :=
  match dateNumAt l with
  | some m => some m
  | none => dateTxtAt l

/-- Pattern `label\s*date[:\s]*(date)` at one position, for a lower-case literal
`lab` (used with `registration`/`regn`/`reg.` and `receipt`).  The greedy
`\s*` and `[:\s]*` runs are equivalent to dropping those characters,
because both `date` and a date start outside the respective classes. -/
def afterLabelDate (lab : List Char) (l : List Char) : Option (List Char) :=
  if startsWithCI lab l then
    let r1 := (l.drop lab.length).dropWhile pyWs
    if startsWithCI "date".data r1 then
      dateAt ((r1.drop 4).dropWhile (fun c => c == ':' || pyWs c))
    else none
  else none

/-- One position of the registration-date pattern
`(?:Registration|Regn|Reg\.)\s*Date[:\s]*(...)`, alternatives in order. -/
def regDateAt (l : List Char) : Option (List Char) :=
  match afterLabelDate "registration".data l with
  | some m => some m
  | none =>
    match afterLabelDate "regn".data l with
    | some m => some m
    | none => afterLabelDate "reg.".data l

/-- Model of `re.search` of the registration-date pattern. -/
def searchRegDate (l : List Char) : Option (List Char) := scanFirst regDateAt l

/-- Model of `re.search` of the receipt-date pattern `Receipt\s*date[:\s]*(...)`. -/
def searchRecDate (l : List Char) : Option (List Char) :=
  scanFirst (afterLabelDate "receipt".data) l

/-- Model of `re.search` of a bare date anywhere in the text. -/
def searchDate (l : List Char) : Option (List Char) := scanFirst dateAt l

/-- Truthiness of a string-or-`None` field (`if doc_info['doc_chassis']`). -/
def optTruthy : Option String → Bool
  | none => false
  | some s => !(s == "")

/-! ### `parse_document_data` (app.py lines 73–136) -/

/-- The structured fact record extracted from one document text. -/
structure DocFact where
  vehicle_no : String
  reg_type : String
  doc_chassis : Option String
  doc_name : Option String
  reg_date_specific : Option String
  receipt_date_specific : Option String
  fallback_date : Option String
deriving DecidableEq, Repr

/-- Model of `parse_document_data`: extract vehicle number, registration type,
chassis, customer name and dates from one document's text. -/
def parse_document_data (text : String) : DocFact :=
  let l := text.data
  let hasTemp := has_temp_keyword l
  let veh := searchVehicle l
  let vehicle_no :=
    match veh with
    | some m => String.mk m
    | none => if containsNew l then "NEW" else "Not Found"
  let reg_type :=
    if veh.isSome then "Permanent"
    else if vehicle_no == "NEW" then "Permanent"
    else if hasTemp then "Temporary"
    else "Temporary"
  let regDate := (searchRegDate l).map String.mk
  let recDate := (searchRecDate l).map String.mk
  { vehicle_no := vehicle_no
    reg_type := reg_type
    doc_chassis := (searchChassis l).map String.mk
    doc_name := (searchName l).map first4Tokens
    reg_date_specific := regDate
    receipt_date_specific := recDate
    fallback_date :=
      if !(optTruthy regDate) && !(optTruthy recDate) then
        (searchDate l).map String.mk
      else none }

example : (parse_document_data "Sold MH12AB1234 here").vehicle_no = "MH12AB1234" := by decide
example : (parse_document_data "Sold MH12AB1234 here").reg_type = "Permanent" := by decide
example : (parse_document_data "Only 22BH1234AA here").vehicle_no = "22BH1234AA" := by decide
example : (parse_document_data "Only 22BH1234AA here").reg_type = "Permanent" := by decide
example : (parse_document_data "a New car").vehicle_no = "NEW" := by decide
example : (parse_document_data "a New car").reg_type = "Permanent" := by decide
example : (parse_document_data "temporary registration x").reg_type = "Temporary" := by decide
example : (parse_document_data "ref 1HGCM82633A004352 ok").doc_chassis =
    some "1HGCM82633A004352" := by decide
example : (parse_document_data "ref X1HGCM82633A004352 ok").doc_chassis = none := by decide
example : (parse_document_data "Customer Name: John Smith").doc_name =
    some "John Smith" := by decide
example : (parse_document_data "Received From Bob Stone 2HGCM82633A004353").doc_name =
    some "Bob Stone" := by decide
example :
    (parse_document_data "Registration Date: 01-01-2020 Receipt date: 02-02-2020").reg_date_specific =
      some "01-01-2020" := by decide
example :
    (parse_document_data "Registration Date: 01-01-2020 Receipt date: 02-02-2020").receipt_date_specific =
      some "02-02-2020" := by decide
example : (parse_document_data "paid on 05/06/2021").fallback_date =
    some "05/06/2021" := by decide
example : (parse_document_data "paid on 5-Jan-2021").fallback_date =
    some "5-Jan-2021" := by decide

/-! ### `find_column_case_insensitive` (app.py lines 47–60) -/

/-- Strict case-insensitive column search: return the first column whose
`lower().strip()` form occurs among the allowed names (also lowered and
stripped). -/
def find_column_case_insensitive (columns allowed : List String) : Option String :=
  let allowed_lower := allowed.map pyLowerStrip
  columns.find? fun c => allowed_lower.contains (pyLowerStrip c)

/-- The list `chassis_variations` (app.py line 258). -/
def chassis_variations : List String := ["chassis number", "vin number"]

/-- The list `name_variations` (app.py line 262). -/
def name_variations : List String := ["customer name"]

/-! ### `analyze_row` (app.py lines 138–179) -/

/-- The `doc_data` dict assembled for one merged row (app.py lines
296–301): the document-side cells, which are strings for a joined row
and `nan` fills for a row whose join found no document. -/
structure DocData where
  doc_name : PyVal
  doc_chassis : PyVal
  reg_type : PyVal
  vehicle_no : PyVal
deriving DecidableEq, Repr

/-- Remark for the secondary-lookup hold. -/
def remark_inconclusive : String :=
  "Inconclusive Documentation provided - RTO challan/VAHAN screenshot/Tax paid receipt attached is incorrect"

/-- Remark for the temporary-registration hold. -/
def remark_temp : String :=
  "Incomplete Documentation provided - RTO challan/VAHAN screenshot/Tax paid receipt is not attached."

/-- Remark for the manual-verification outcomes. -/
def remark_manual : String := "Please verify manually"

/-- Model of `analyze_row`: the ordered decision procedure.  Returns
`(remark, status, error_type)`, as the source does.  `excel_name` is the
row's `Customer Name` cell; `df_docs_all` is the extracted-fact pool the
fallback loop iterates over. -/
def analyze_row (excel_name : PyVal) (doc_data : DocData)
    (df_docs_all : List DocFact) : String × String × String :=
  if !(pyTruthy doc_data.doc_chassis) then
    if pyTruthy excel_name && !df_docs_all.isEmpty then
      if df_docs_all.any fun d => check_name_match_v excel_name (optToVal d.doc_name) then
        (remark_inconclusive, "Hold", "NAME MATCH / CHASSIS MISMATCH")
      else (remark_manual, "Pending", "NO DOCUMENT FOUND")
    else (remark_manual, "Pending", "NO DOCUMENT FOUND")
  else
    let name_is_match := check_name_match_v excel_name doc_data.doc_name
    let is_permanent := pyEqStr doc_data.reg_type "Permanent"
    if name_is_match && is_permanent then ("Approved", "Approve", "None")
    else if name_is_match && !is_permanent then (remark_temp, "Hold", "TEMP REGISTRATION")
    else if !name_is_match then (remark_inconclusive, "Hold", "NAME MISMATCH")
    else (remark_manual, "Pending", "UNKNOWN ERROR")

/-! ### The pipeline (app.py lines 230–343) -/

/-- The document side of one merged row: a joined fact, the `nan` fill
of a failed left join (document columns exist but hold `nan`), or the
`None` column written when no document yielded a chassis (app.py line
290; the other document columns are then absent entirely). -/
inductive DocPart where
  | joined : DocFact → DocPart
  | nanFill : DocPart
  | noneFill : DocPart
deriving DecidableEq, Repr

/-- The `doc_data` dict of a merged row.  For a joined fact the chassis
cell carries the `astype(str).str.strip()` form (app.py line 286); for a
`nan` fill every `row.get` returns `nan`; when the document frame was
empty only `doc_chassis` exists (as `None`) and `vehicle_no` falls back
to its `"Not Found"` default. -/
def docPartData : DocPart → DocData
  | .joined d =>
    { doc_name := optToVal d.doc_name
      doc_chassis := .vStr (pyStripStr (d.doc_chassis.getD ""))
      reg_type := .vStr d.reg_type
      vehicle_no := .vStr d.vehicle_no }
  | .nanFill => { doc_name := .vNan, doc_chassis := .vNan, reg_type := .vNan, vehicle_no := .vNan }
  | .noneFill =>
    { doc_name := .vNone, doc_chassis := .vNone, reg_type := .vNone,
      vehicle_no := .vStr "Not Found" }

/-- The three date cells of a merged row, in the order
(registration, receipt, fallback). -/
def docPartDates : DocPart → PyVal × PyVal × PyVal
  | .joined d =>
    (optToVal d.reg_date_specific, optToVal d.receipt_date_specific,
      optToVal d.fallback_date)
  | .nanFill => (.vNan, .vNan, .vNan)
  | .noneFill => (.vNone, .vNone, .vNone)

/-- The date-precedence logic of the report assembler (app.py lines
308–313): `if reg_date and str(reg_date).strip(): ...`. -/
def finalRegDate (reg rec fb : PyVal) : PyVal :=
  if pyTruthy reg && !(pyStripStr (pyStr reg) == "") then reg
  else if pyTruthy rec && !(pyStripStr (pyStr rec) == "") then rec
  else fb

/-- Modelled from the spec, §4.6: a date field is "present and
non-blank" when it is an actual string (not null/missing) that is
nonempty after stripping. -/
def specPresent : PyVal → Bool
  | .vStr s => !(pyStripStr s == "")
  | _ => false

/-- Modelled from the spec, §4.6: "resolve the effective verification
date by precedence: registrationDate if present and non-blank, else
receiptDate if present and non-blank, else fallbackDate (which may
itself be null)". -/
def specVerificationDate (reg rec fb : PyVal) : PyVal :=
  if specPresent reg then reg else if specPresent rec then rec else fb

/-- The resolved chassis/name cells of one spreadsheet row. -/
structure RowVals where
  chassis : PyVal
  name : PyVal
deriving DecidableEq, Repr

/-- One row of the output report (the fields the claims speak about; the
remaining pass-through columns and the final column reordering are not
modelled). -/
structure OutRow where
  chassis : PyVal
  name : PyVal
  verifDate : PyVal
  docVehicle : PyVal
  status : String
  remark : String
deriving DecidableEq, Repr

/-- The per-row body of the analysis loop (app.py lines 294–335):
assemble `doc_data`, resolve the verification date, run `analyze_row`
and build the output record. -/
def buildOutRow (r : RowVals) (p : DocPart) (docs : List DocFact) : OutRow :=
  let dd := docPartData p
  let dts := docPartDates p
  let res := analyze_row r.name dd docs
  { chassis := r.chassis
    name := r.name
    verifDate := finalRegDate dts.1 dts.2.1 dts.2.2
    docVehicle := dd.vehicle_no
    status := res.2.1
    remark := res.1 }

/-- The join key of a spreadsheet row:
`astype(str).str.strip()` of its chassis cell. -/
def chassisKey (r : RowVals) : String := pyStripStr (pyStr r.chassis)

/-- The join key of an extracted fact (its chassis is a non-null string
by the extraction filter). -/
def docKey (d : DocFact) : String := pyStripStr (d.doc_chassis.getD "")

/-- The `astype(str).str.strip()` rewrite of the chassis column
(app.py line 285), applied to a row. -/
def stripRow (r : RowVals) : RowVals :=
  { chassis := .vStr (chassisKey r), name := r.name }

/-- Model of `pd.merge(df_user, df_docs, left_on='Chassis number',
right_on='doc_chassis', how='left')`: every left row is retained; a row
with matching facts is repeated once per matching fact (in fact order),
a row without gets `nan` fills.  The chassis cell is overwritten by its
stripped string form first (app.py line 285). -/
def mergeJoin : List RowVals → List DocFact → List (RowVals × DocPart)
  | [], _ => []
  | r :: rs, docs =>
    (match docs.filter (fun d => docKey d == chassisKey r) with
     | [] => [(stripRow r, .nanFill)]
     | m :: ms => (m :: ms).map fun d => (stripRow r, .joined d)) ++ mergeJoin rs docs

/-- The merge step (app.py lines 283–290): when no document produced a
chassis the user frame is kept as-is and `doc_chassis` is set to `None`. -/
def mergeRows (rows : List RowVals) (docs : List DocFact) : List (RowVals × DocPart) :=
  if docs.isEmpty then rows.map fun r => (r, .noneFill)
  else mergeJoin rows docs

/-- The extraction loop (app.py lines 238–243): parse every document
text and keep only facts whose chassis is truthy. -/
def extractedDocs (texts : List String) : List DocFact :=
  (texts.map parse_document_data).filter fun d => optTruthy d.doc_chassis

/-- The analysis of the whole merged frame. -/
def processSheet (rows : List RowVals) (docs : List DocFact) : List OutRow :=
  (mergeRows rows docs).map fun rp => buildOutRow rp.1 rp.2 docs

/-- The input spreadsheet: its headers and its rows as header/value
pairs (the model assumes distinct headers; the source dedupes
duplicates by first occurrence before this point). -/
structure Sheet where
  headers : List String
  rows : List (List (String × PyVal))

/-- Model of `row.get(col)`: the value under a column, `None` when absent. -/
def getCell (row : List (String × PyVal)) (col : String) : PyVal :=
  match row.find? (fun kv => kv.1 == col) with
  | some kv => kv.2
  | none => .vNone

/-- Project one spreadsheet row onto its resolved chassis/name cells. -/
def projectRow (cc nc : String) (row : List (String × PyVal)) : RowVals :=
  { chassis := getCell row cc, name := getCell row nc }

/-- Column resolution (app.py lines 255–267): resolve both required
columns or fail with the list of the input's headers
(`if not chassis_col or not name_col: st.error(...); st.stop()`). -/
def resolveColumns (headers : List String) : Except (List String) (String × String) :=
  match find_column_case_insensitive headers chassis_variations,
      find_column_case_insensitive headers name_variations with
  | some cc, some nc =>
    if cc == "" || nc == "" then .error headers else .ok (cc, nc)
  | _, _ => .error headers

/-- The full pipeline on the data the UI hands it: extract facts from
the document texts, resolve the required columns (failing fast with the
header list), merge, analyze and assemble the report rows in order. -/
def runPipeline (sheet : Sheet) (texts : List String) :
    Except (List String) (List OutRow) :=
  let docs := extractedDocs texts
  match resolveColumns sheet.headers with
  | .error hs => .error hs
  | .ok (cc, nc) => .ok (processSheet (sheet.rows.map (projectRow cc nc)) docs)

/-! ### Concrete scenarios used by counterexamples and witnesses -/

/-- A one-row spreadsheet: chassis `1HGCM82633A004352`, name `John Smith`. -/
def sheetJohn : Sheet :=
  { headers := ["Chassis Number", "Customer Name"]
    rows := [[("Chassis Number", .vStr "1HGCM82633A004352"),
              ("Customer Name", .vStr "John Smith")]] }

/-- A one-row spreadsheet: chassis `1HGCM82633A004352`, name `Alice Brown`. -/
def sheetAlice : Sheet :=
  { headers := ["Chassis Number", "Customer Name"]
    rows := [[("Chassis Number", .vStr "1HGCM82633A004352"),
              ("Customer Name", .vStr "Alice Brown")]] }

/-- A document text with a matching customer name but no chassis number. -/
def textNoChassis : String := "Customer Name: John Smith"

/-- Two document texts sharing the chassis `1HGCM82633A004352`. -/
def textsDupChassis : List String :=
  ["Customer Name: John Smith 1HGCM82633A004352",
   "Customer Name: Jane Doe 1HGCM82633A004352"]

/-- A document text whose chassis differs from every spreadsheet row
and whose name matches no row. -/
def textOtherChassis : String := "Received From Bob Stone 2HGCM82633A004353"

example : (runPipeline sheetJohn [textNoChassis]).toOption.map (List.map OutRow.status) =
    some ["Pending"] := by decide
example : (runPipeline sheetJohn [textNoChassis]).toOption.map (List.map OutRow.remark) =
    some [remark_manual] := by decide
example : (runPipeline sheetJohn textsDupChassis).toOption.map List.length = some 2 := by decide
example : (runPipeline sheetAlice [textOtherChassis]).toOption.map
    (List.map fun o => (o.status, o.remark)) =
    some [("Hold", remark_inconclusive)] := by decide
example : (runPipeline sheetJohn ["Customer Name: John Smith 1HGCM82633A004352"]).toOption.map
    (List.map fun o => (o.status, o.remark)) = some [("Hold", remark_temp)] := by decide
example :
    (runPipeline sheetJohn ["Customer Name: John Smith MH12AB1234 1HGCM82633A004352"]).toOption.map
      (List.map fun o => (o.status, o.remark)) = some [("Approve", "Approved")] := by decide

/-! ## Claims -/

/-- C1, counterexample.  One document whose customer name matches the
row's name but which carries no chassis number: its fact is dropped from
the pool (`doc_chassis = none`), so the row ends `Pending` /
"Please verify manually" instead of the claimed Hold /
NAME MATCH / CHASSIS MISMATCH outcome, even though the name matcher
accepts the pair. -/
theorem c1_counterexample :
    (parse_document_data textNoChassis).doc_chassis = none ∧
    check_name_match (some "John Smith") (parse_document_data textNoChassis).doc_name = true ∧
    (runPipeline sheetJohn [textNoChassis]).toOption.map
        (List.map fun o => (o.status, o.remark)) =
      some [("Pending", remark_manual)] := by decide

/-- C1, amended: facts lacking a chassis number are excluded not only
from the identifier join but from the whole extracted pool, so the
secondary name-based fallback scans only facts that do carry a chassis
number. -/
theorem c1_fallback_pool_requires_chassis (texts : List String) (d : DocFact)
    (hd : d ∈ extractedDocs texts) : optTruthy d.doc_chassis = true :=
  (List.mem_filter.mp hd).2

/-- C1, witness for the amended theorem at a concrete document. -/
theorem c1_fallback_pool_requires_chassis_witness :
    optTruthy (parse_document_data "Customer Name: John Smith 1HGCM82633A004352").doc_chassis
      = true :=
  c1_fallback_pool_requires_chassis
    ["Customer Name: John Smith 1HGCM82633A004352"] _ (by decide)

/-- C2, counterexample.  Two documents share the chassis of the single
input row; the left join repeats that row once per matching fact, so one
input row yields two output rows. -/
theorem c2_counterexample :
    (runPipeline sheetJohn textsDupChassis).toOption.map List.length = some 2 ∧
    sheetJohn.rows.length = 1 := by decide

/-- The fact a row joins to when chassis keys are unique: the first
fact with the row's key, or the `nan` fill. -/
def firstFactPart (docs : List DocFact) (r : RowVals) : DocPart :=
  match docs.find? (fun d => docKey d == chassisKey r) with
  | some d => .joined d
  | none => .nanFill

/-- The single output row an input row yields when chassis keys are
unique. -/
def rowOutcome (docs : List DocFact) (r : RowVals) : OutRow :=
  if docs.isEmpty then buildOutRow r .noneFill docs
  else buildOutRow (stripRow r) (firstFactPart docs r) docs

/-- With pairwise-distinct fact keys, filtering by a found key yields
exactly the found fact. -/
lemma filter_key_of_find?_some {docs : List DocFact} {k : String} {d : DocFact}
    (h : (docs.map docKey).Nodup)
    (hf : docs.find? (fun e => docKey e == k) = some d) :
    docs.filter (fun e => docKey e == k) = [d] := by
  induction docs with
  | nil => cases hf
  | cons a rest ih =>
    rw [List.map_cons, List.nodup_cons] at h
    by_cases ha : (docKey a == k) = true
    · have hfc : List.find? (fun e => docKey e == k) (a :: rest) = some a :=
        List.find?_cons_of_pos rest ha
      rw [hfc] at hf
      injection hf with hf
      subst hf
      have hflc : List.filter (fun e => docKey e == k) (a :: rest) =
          a :: rest.filter (fun e => docKey e == k) :=
        List.filter_cons_of_pos ha
      rw [hflc]
      have hrest : rest.filter (fun e => docKey e == k) = [] := by
        rw [List.filter_eq_nil_iff]
        intro e he hek
        apply h.1
        have hae : docKey a = docKey e := by
          rw [eq_of_beq ha, ← eq_of_beq hek]
        rw [hae]
        exact List.mem_map_of_mem docKey he
      rw [hrest]
    · have hfc : List.find? (fun e => docKey e == k) (a :: rest) =
          List.find? (fun e => docKey e == k) rest :=
        List.find?_cons_of_neg rest ha
      rw [hfc] at hf
      have hflc : List.filter (fun e => docKey e == k) (a :: rest) =
          rest.filter (fun e => docKey e == k) :=
        List.filter_cons_of_neg ha
      rw [hflc]
      exact ih h.2 hf

/-- With pairwise-distinct fact keys the merge is one-to-one: each row
contributes exactly the pair given by `firstFactPart`. -/
lemma mergeJoin_eq_map {docs : List DocFact} (h : (docs.map docKey).Nodup)
    (rows : List RowVals) :
    mergeJoin rows docs =
      rows.map fun r => (stripRow r, firstFactPart docs r) := by
  induction rows with
  | nil => rfl
  | cons r rs ih =>
    have hhead :
        (match docs.filter (fun d => docKey d == chassisKey r) with
         | [] => [(stripRow r, DocPart.nanFill)]
         | m :: ms => (m :: ms).map fun d => (stripRow r, DocPart.joined d)) =
          [(stripRow r, firstFactPart docs r)] := by
      cases hf : docs.find? (fun d => docKey d == chassisKey r) with
      | none =>
        have hfil : docs.filter (fun d => docKey d == chassisKey r) = [] := by
          rw [List.filter_eq_nil_iff]
          intro e he hek
          exact absurd hek (List.find?_eq_none.mp hf e he)
        rw [hfil]
        simp only [firstFactPart, hf]
      | some d =>
        have hfil := filter_key_of_find?_some h hf
        rw [hfil]
        simp only [firstFactPart, hf, List.map_cons, List.map_nil]
    rw [mergeJoin, hhead, ih, List.map_cons, List.singleton_append]

/-- With pairwise-distinct fact keys the whole analysis is a `map` over
the input rows. -/
lemma processSheet_eq_map {docs : List DocFact} (h : (docs.map docKey).Nodup)
    (rows : List RowVals) :
    processSheet rows docs = rows.map (rowOutcome docs) := by
  unfold processSheet mergeRows
  by_cases hd : docs.isEmpty = true
  · rw [if_pos hd, List.map_map]
    simp [rowOutcome, hd, Function.comp]
  · rw [if_neg hd, mergeJoin_eq_map h, List.map_map]
    simp [rowOutcome, hd, Function.comp]

/-- C2, amended: provided no two extracted facts share a chassis key,
the pipeline emits exactly one outcome per input row, in input order
(the output is a `map` over the input rows); when facts do share a
chassis matched by a row, that row is duplicated once per matching fact
(see the counterexample). -/
theorem c2_unique_chassis_row_preservation (sheet : Sheet) (texts : List String)
    (hdist : ((extractedDocs texts).map docKey).Nodup)
    (out : List OutRow) (hout : runPipeline sheet texts = .ok out) :
    ∃ cc nc, resolveColumns sheet.headers = .ok (cc, nc) ∧
      out = sheet.rows.map
        (fun row => rowOutcome (extractedDocs texts) (projectRow cc nc row)) ∧
      out.length = sheet.rows.length := by
  unfold runPipeline at hout
  cases hrc : resolveColumns sheet.headers with
  | error hs =>
    rw [hrc] at hout
    cases hout
  | ok p =>
    obtain ⟨cc, nc⟩ := p
    rw [hrc] at hout
    injection hout with hout
    have hmap : out = sheet.rows.map
        (fun row => rowOutcome (extractedDocs texts) (projectRow cc nc row)) := by
      rw [← hout, processSheet_eq_map hdist, List.map_map]
      rfl
    exact ⟨cc, nc, rfl, hmap, by rw [hmap, List.length_map]⟩

/-- An `Except` whose `toOption` is `some` is that `ok`. -/
lemma except_eq_ok_of_toOption {ε α : Type} {e : Except ε α} {v : α}
    (h : e.toOption = some v) : e = .ok v := by
  cases e with
  | ok a =>
    injection h with h
    rw [h]
  | error b => cases h

/-- The output row of the witness scenario below. -/
def outRowJohnTemp : List OutRow :=
  [{ chassis := .vStr "1HGCM82633A004352", name := .vStr "John Smith",
     verifDate := .vNone, docVehicle := .vStr "Not Found",
     status := "Hold", remark := remark_temp }]

/-- C2, witness for the amended theorem: with a single extracted fact
the pipeline yields exactly one row per input row, in order. -/
theorem c2_unique_chassis_row_preservation_witness :
    ∃ cc nc,
      resolveColumns sheetJohn.headers = .ok (cc, nc) ∧
      outRowJohnTemp = sheetJohn.rows.map
        (fun row => rowOutcome
          (extractedDocs ["Customer Name: John Smith 1HGCM82633A004352"])
          (projectRow cc nc row)) ∧
      outRowJohnTemp.length = sheetJohn.rows.length :=
  c2_unique_chassis_row_preservation sheetJohn
    ["Customer Name: John Smith 1HGCM82633A004352"] (by decide)
    outRowJohnTemp (except_eq_ok_of_toOption (by decide))

/-- C3, code bug, evaluated at the failing input.  The one extracted
fact has a chassis different from the row's, so the row's join fails;
the claim (and the code's own comment on the branch) says the row then
takes the fallback path to Pending / NO DOCUMENT FOUND, but the `nan`
that pandas fills into `doc_chassis` is truthy, so the code instead runs
the primary check against the `nan` cells and returns Hold with the
NAME MISMATCH remark. -/
theorem c3_code_bug_eval :
    (runPipeline sheetAlice [textOtherChassis]).toOption.map
        (List.map fun o => (o.status, o.remark)) =
      some [("Hold", remark_inconclusive)] ∧
    extractedDocs [textOtherChassis] ≠ [] ∧
    ((extractedDocs [textOtherChassis]).all
      fun d => !(docKey d == "1HGCM82633A004352")) = true := by decide

/-- C4: for a row whose `doc_data` carries a truthy chassis (an
identifier-joined fact), a matching name with Permanent type yields
(Approve, "None"), a matching name with Temporary type yields
(Hold, TEMP REGISTRATION), a non-matching name yields
(Hold, NAME MISMATCH), and the UNKNOWN ERROR fallback is never
produced. -/
theorem c4_joined_row_decision (e : PyVal) (dd : DocData) (docs : List DocFact)
    (hch : pyTruthy dd.doc_chassis = true) :
    (check_name_match_v e dd.doc_name = true → dd.reg_type = .vStr "Permanent" →
      analyze_row e dd docs = ("Approved", "Approve", "None")) ∧
    (check_name_match_v e dd.doc_name = true → dd.reg_type = .vStr "Temporary" →
      analyze_row e dd docs = (remark_temp, "Hold", "TEMP REGISTRATION")) ∧
    (check_name_match_v e dd.doc_name = false →
      analyze_row e dd docs = (remark_inconclusive, "Hold", "NAME MISMATCH")) ∧
    (analyze_row e dd docs).2.2 ≠ "UNKNOWN ERROR" := by
  refine ⟨?_, ?_, ?_, ?_⟩
  · intro hm hrt
    simp [analyze_row, hch, hm, hrt, pyEqStr]
  · intro hm hrt
    simp [analyze_row, hch, hm, hrt, pyEqStr]
  · intro hm
    simp [analyze_row, hch, hm]
  · cases hm : check_name_match_v e dd.doc_name <;>
      cases hp : pyEqStr dd.reg_type "Permanent" <;>
      simp [analyze_row, hch, hm, hp]

/-- C4, witness: a joined Permanent fact with a matching name is
approved. -/
theorem c4_joined_row_decision_witness :
    analyze_row (.vStr "John Smith")
      { doc_name := .vStr "John Smith", doc_chassis := .vStr "1HGCM82633A004352",
        reg_type := .vStr "Permanent", vehicle_no := .vStr "MH12AB1234" } [] =
      ("Approved", "Approve", "None") :=
  (c4_joined_row_decision _ _ _ (by decide)).1 (by decide) rfl

/-- C7: if either plate pattern matches, the registration type is
Permanent; else, if the text contains "new" (case-insensitively), the
vehicle number is the sentinel "NEW" and the type is Permanent
regardless of the temporary-registration keyword; otherwise the type is
Temporary. -/
theorem c7_registration_type_rule (text : String) :
    ((searchVehicle text.data).isSome = true →
      (parse_document_data text).reg_type = "Permanent") ∧
    (searchVehicle text.data = none → containsNew text.data = true →
      (parse_document_data text).vehicle_no = "NEW" ∧
      (parse_document_data text).reg_type = "Permanent") ∧
    (searchVehicle text.data = none → containsNew text.data = false →
      (parse_document_data text).reg_type = "Temporary") := by
  refine ⟨?_, ?_, ?_⟩
  · intro hv
    cases hveh : searchVehicle text.data with
    | none => rw [hveh] at hv; simp at hv
    | some m => simp [parse_document_data, hveh]
  · intro hv hn
    simp [parse_document_data, hv, hn]
  · intro hv hn
    simp [parse_document_data, hv, hn]

/-- C7, witness at three concrete documents: a standard plate, a "new"
vehicle with the temporary keyword present, and a keyword-only text. -/
theorem c7_registration_type_rule_witness :
    (parse_document_data "Vehicle MH12AB1234 sold").reg_type = "Permanent" ∧
    ((parse_document_data "brand NEW vehicle temp regn").vehicle_no = "NEW" ∧
      (parse_document_data "brand NEW vehicle temp regn").reg_type = "Permanent") ∧
    (parse_document_data "temporary registration paper").reg_type = "Temporary" :=
  ⟨(c7_registration_type_rule _).1 (by decide),
   (c7_registration_type_rule _).2.1 (by decide) (by decide),
   (c7_registration_type_rule _).2.2 (by decide) (by decide)⟩

/-- The date-cell condition of the assembler agrees with the spec's
"present and non-blank" on string-or-`None` cells. -/
lemma datecond_optToVal (o : Option String) :
    (pyTruthy (optToVal o) && !(pyStripStr (pyStr (optToVal o)) == "")) =
      specPresent (optToVal o) := by
  cases o with
  | none => rfl
  | some s =>
    by_cases hs : s = ""
    · subst hs; rfl
    · simp [optToVal, pyTruthy, pyStr, specPresent, hs]

/-- On string-or-`None` date cells the assembler's precedence equals the
spec's. -/
lemma finalRegDate_optToVal (r rc f : Option String) :
    finalRegDate (optToVal r) (optToVal rc) (optToVal f) =
      specVerificationDate (optToVal r) (optToVal rc) (optToVal f) := by
  unfold finalRegDate specVerificationDate
  rw [datecond_optToVal, datecond_optToVal]

/-- C8: for every output row the verification date written by the
report assembler equals the spec's precedence (registration date if
present and non-blank, else receipt date if present and non-blank, else
fallback date) applied to the row's document-side date cells — for
every kind of merged row (joined fact, failed join, empty pool). -/
theorem c8_verification_date_precedence (r : RowVals) (p : DocPart)
    (docs : List DocFact) :
    (buildOutRow r p docs).verifDate =
      specVerificationDate (docPartDates p).1 (docPartDates p).2.1
        (docPartDates p).2.2 := by
  cases p with
  | joined d =>
    simp only [buildOutRow, docPartDates]
    exact finalRegDate_optToVal _ _ _
  | nanFill => simp only [buildOutRow, docPartDates]; rfl
  | noneFill => simp only [buildOutRow, docPartDates]; rfl

/-- A resolved column is falsy to `if not chassis_col or not name_col`
when it is `None` or the empty string. -/
def columnFalsy : Option String → Bool
  | none => true
  | some s => s == ""

/-- Column resolution fails exactly on falsy lookups, with the input
headers as payload. -/
lemma resolveColumns_error (headers : List String)
    (h : (columnFalsy (find_column_case_insensitive headers chassis_variations) ||
        columnFalsy (find_column_case_insensitive headers name_variations)) = true) :
    resolveColumns headers = .error headers := by
  unfold resolveColumns
  cases hcc : find_column_case_insensitive headers chassis_variations with
  | none => rfl
  | some cc =>
    cases hnc : find_column_case_insensitive headers name_variations with
    | none => rfl
    | some nc =>
      rw [hcc, hnc] at h
      simp only [columnFalsy] at h
      simp [h]

/-- When both lookups are non-falsy, column resolution succeeds. -/
lemma resolveColumns_ok (headers : List String)
    (h : (columnFalsy (find_column_case_insensitive headers chassis_variations) ||
        columnFalsy (find_column_case_insensitive headers name_variations)) = false) :
    ∃ cc nc, resolveColumns headers = .ok (cc, nc) := by
  unfold resolveColumns
  cases hcc : find_column_case_insensitive headers chassis_variations with
  | none => rw [hcc] at h; simp [columnFalsy] at h
  | some cc =>
    cases hnc : find_column_case_insensitive headers name_variations with
    | none => rw [hcc, hnc] at h; simp [columnFalsy] at h
    | some nc =>
      rw [hcc, hnc] at h
      simp only [columnFalsy, Bool.or_eq_false_iff] at h
      exact ⟨cc, nc, by simp [h.1, h.2]⟩

/-- C9: column resolution is the strict case-insensitive synonym search:
a resolved column is an actual input header whose lowered/stripped form
is one of the accepted synonyms; if either required column is not
resolved the pipeline stops with the list of input headers and produces
no report, and if both resolve no such failure is raised. -/
theorem c9_column_resolution (sheet : Sheet) (texts : List String) :
    (((columnFalsy (find_column_case_insensitive sheet.headers chassis_variations) ||
        columnFalsy (find_column_case_insensitive sheet.headers name_variations)) = true) →
      runPipeline sheet texts = .error sheet.headers) ∧
    (((columnFalsy (find_column_case_insensitive sheet.headers chassis_variations) ||
        columnFalsy (find_column_case_insensitive sheet.headers name_variations)) = false) →
      ∃ out, runPipeline sheet texts = .ok out) ∧
    (∀ c, find_column_case_insensitive sheet.headers chassis_variations = some c →
      c ∈ sheet.headers ∧
        (chassis_variations.map pyLowerStrip).contains (pyLowerStrip c) = true) ∧
    (∀ c, find_column_case_insensitive sheet.headers name_variations = some c →
      c ∈ sheet.headers ∧
        (name_variations.map pyLowerStrip).contains (pyLowerStrip c) = true) := by
  refine ⟨?_, ?_, ?_, ?_⟩
  · intro h
    have he := resolveColumns_error sheet.headers h
    simp [runPipeline, he]
  · intro h
    obtain ⟨cc, nc, hok⟩ := resolveColumns_ok sheet.headers h
    refine ⟨processSheet (sheet.rows.map (projectRow cc nc)) (extractedDocs texts), ?_⟩
    simp [runPipeline, hok]
  · intro c hc
    simp only [find_column_case_insensitive] at hc
    refine ⟨List.mem_of_find?_eq_some hc, ?_⟩
    have h2 := List.find?_some hc
    simpa using h2
  · intro c hc
    simp only [find_column_case_insensitive] at hc
    refine ⟨List.mem_of_find?_eq_some hc, ?_⟩
    have h2 := List.find?_some hc
    simpa using h2

/-- C9, witness: a sheet offering neither accepted chassis synonym fails
fast with its header list. -/
theorem c9_column_resolution_witness :
    runPipeline { headers := ["Vehicle", "Owner"], rows := [] } [] =
      .error ["Vehicle", "Owner"] :=
  (c9_column_resolution { headers := ["Vehicle", "Owner"], rows := [] } []).1 (by decide)

/-- A captured numeric date is nonempty. -/
lemma dateNumAt_ne_nil {l m : List Char} (h : dateNumAt l = some m) : m ≠ [] := by
  rw [dateNumAt.eq_def] at h
  split at h
  · split at h
    · injection h with h; subst h; simp
    · cases h
  · cases h

/-- A captured one-digit-day textual date is nonempty. -/
lemma dateTxt1_ne_nil {l m : List Char} (h : dateTxt1 l = some m) : m ≠ [] := by
  rw [dateTxt1.eq_def] at h
  split at h
  · split at h
    · injection h with h; subst h; simp
    · cases h
  · cases h

/-- A captured textual date is nonempty. -/
lemma dateTxtAt_ne_nil {l m : List Char} (h : dateTxtAt l = some m) : m ≠ [] := by
  rw [dateTxtAt.eq_def] at h
  split at h
  · split at h
    · injection h with h; subst h; simp
    · exact dateTxt1_ne_nil h
  · exact dateTxt1_ne_nil h

/-- A captured date is nonempty. -/
lemma dateAt_ne_nil {l m : List Char} (h : dateAt l = some m) : m ≠ [] := by
  unfold dateAt at h
  split at h
  · injection h with h; subst h
    exact dateNumAt_ne_nil (by assumption)
  · exact dateTxtAt_ne_nil h

/-- A date captured after a label is nonempty. -/
lemma afterLabelDate_ne_nil {lab l m : List Char}
    (h : afterLabelDate lab l = some m) : m ≠ [] := by
  unfold afterLabelDate at h
  split at h
  · simp only [] at h
    split at h
    · exact dateAt_ne_nil h
    · cases h
  · cases h

/-- Values returned by `scanFirst` come from its position matcher. -/
lemma scanFirst_prop {f : List Char → Option (List Char)}
    (P : List Char → Prop) (hf : ∀ l m, f l = some m → P m) :
    ∀ l m, scanFirst f l = some m → P m := by
  intro l
  induction l with
  | nil => intro m h; exact hf [] m h
  | cons c r ih =>
    intro m h
    rw [scanFirst] at h
    split at h
    · injection h with h; subst h; exact hf _ _ (by assumption)
    · exact ih m h

/-- A labeled registration date is nonempty. -/
lemma searchRegDate_ne_nil {l m : List Char}
    (h : searchRegDate l = some m) : m ≠ [] := by
  refine scanFirst_prop (fun m => m ≠ []) ?_ l m h
  intro l' m' h'
  unfold regDateAt at h'
  split at h'
  · injection h' with h'; subst h'
    exact afterLabelDate_ne_nil (by assumption)
  · split at h'
    · injection h' with h'; subst h'
      exact afterLabelDate_ne_nil (by assumption)
    · exact afterLabelDate_ne_nil h'

/-- A labeled receipt date is nonempty. -/
lemma searchRecDate_ne_nil {l m : List Char}
    (h : searchRecDate l = some m) : m ≠ [] := by
  refine scanFirst_prop (fun m => m ≠ []) ?_ l m h
  intro l' m' h'
  exact afterLabelDate_ne_nil h'

/-- A date-search result that is not truthy is `None` (a captured date
string is never empty). -/
lemma labeled_date_none (g : List Char → Option (List Char)) (l : List Char)
    (hne : ∀ m, g l = some m → m ≠ [])
    (h : optTruthy ((g l).map String.mk) = false) :
    (g l).map String.mk = none := by
  cases hs : g l with
  | none => rfl
  | some m =>
    rw [hs] at h
    have h2 : (!(String.mk m == "")) = false := h
    have hbeq : (String.mk m == "") = true := by
      cases hb : String.mk m == "" with
      | true => rfl
      | false => rw [hb] at h2; exact absurd h2 (by decide)
    have hm : m = [] := congrArg String.data (eq_of_beq hbeq)
    exact absurd hm (hne m hs)

/-- C6, counterexample: a document carrying both a labeled registration
date and a labeled receipt date yields a fact with both fields
populated, so more than one of the three date fields is non-null. -/
theorem c6_counterexample :
    (parse_document_data
        "Registration Date: 01-01-2020 Receipt date: 02-02-2020").reg_date_specific =
      some "01-01-2020" ∧
    (parse_document_data
        "Registration Date: 01-01-2020 Receipt date: 02-02-2020").receipt_date_specific =
      some "02-02-2020" := by decide

/-- C6, amended: the labeled registration and receipt dates are
extracted independently and may both be populated; the exclusivity the
claim states holds only for the fallback date, which is populated only
when both labeled dates are null. -/
theorem c6_fallback_excludes_labeled (text : String)
    (hf : (parse_document_data text).fallback_date ≠ none) :
    (parse_document_data text).reg_date_specific = none ∧
    (parse_document_data text).receipt_date_specific = none := by
  cases hcond : (!(optTruthy ((searchRegDate text.data).map String.mk)) &&
      !(optTruthy ((searchRecDate text.data).map String.mk))) with
  | false =>
    exfalso
    apply hf
    simp only [parse_document_data]
    simp [hcond]
  | true =>
    rw [Bool.and_eq_true, Bool.not_eq_true', Bool.not_eq_true'] at hcond
    constructor
    · simpa [parse_document_data] using
        labeled_date_none searchRegDate text.data
          (fun m hm => searchRegDate_ne_nil hm) hcond.1
    · simpa [parse_document_data] using
        labeled_date_none searchRecDate text.data
          (fun m hm => searchRecDate_ne_nil hm) hcond.2

/-- C6, witness for the amended theorem: a text with a bare date and no
labels populates only the fallback field. -/
theorem c6_fallback_excludes_labeled_witness :
    (parse_document_data "paid on 05/06/2021").reg_date_specific = none ∧
    (parse_document_data "paid on 05/06/2021").receipt_date_specific = none :=
  c6_fallback_excludes_labeled "paid on 05/06/2021" (by decide)

/-! ### Character and strip lemmas for the normalizer -/

/-- Converting a valid scalar value with `Char.ofNat` round-trips through `toNat`. -/
lemma toNat_ofNat_valid {n : Nat} (h : n.isValidChar) :
    (Char.ofNat n).toNat = n := by
  rw [Char.ofNat, dif_pos h]
  rfl

/-- Characters that are not upper-case letters are fixed by `pyToLower`. -/
lemma pyToLower_fixes {c : Char} (h : isUpperAZ c = false) : pyToLower c = c := by
  simp [pyToLower, h]

/-- The lower-case image of an upper-case letter has a scalar value in
the lower-case range. -/
lemma pyToLower_upper {c : Char} (h : isUpperAZ c = true) :
    97 ≤ (pyToLower c).toNat ∧ (pyToLower c).toNat ≤ 122 := by
  have h2 : 65 ≤ c.toNat ∧ c.toNat ≤ 90 := by
    simpa [isUpperAZ, Bool.and_eq_true, decide_eq_true_eq] using h
  unfold pyToLower
  rw [if_pos h]
  rw [toNat_ofNat_valid (Or.inl (by omega))]
  omega

/-- Lowering with `pyToLower` is idempotent. -/
lemma pyToLower_idem (c : Char) : pyToLower (pyToLower c) = pyToLower c := by
  cases hu : isUpperAZ c with
  | false => rw [pyToLower_fixes hu, pyToLower_fixes hu]
  | true =>
    have h2 := pyToLower_upper hu
    apply pyToLower_fixes
    rw [Bool.eq_false_iff]
    intro hcontra
    have h3 : 65 ≤ (pyToLower c).toNat ∧ (pyToLower c).toNat ≤ 90 := by
      simpa [isUpperAZ, Bool.and_eq_true, decide_eq_true_eq] using hcontra
    omega

/-- Word characters stay word characters under `pyToLower`. -/
lemma pyWordChar_toLower {c : Char} (h : pyWordChar c = true) :
    pyWordChar (pyToLower c) = true := by
  cases hu : isUpperAZ c with
  | false => rw [pyToLower_fixes hu]; exact h
  | true =>
    have h2 := pyToLower_upper hu
    have hl : isLowerAZ (pyToLower c) = true := by
      simp only [isLowerAZ, Bool.and_eq_true, decide_eq_true_eq]
      omega
    simp [pyWordChar, isAlphaAZ, hl]

/-- Whitespace is fixed by `pyToLower`. -/
lemma pyWs_toLower {c : Char} (h : pyWs c = true) : pyToLower c = c := by
  apply pyToLower_fixes
  rw [Bool.eq_false_iff]
  intro hu
  have h65 : 65 ≤ c.toNat ∧ c.toNat ≤ 90 := by
    simpa [isUpperAZ, Bool.and_eq_true, decide_eq_true_eq] using hu
  simp only [pyWs, Bool.or_eq_true, beq_iff_eq] at h
  have hle : c.toNat ≤ 32 := by
    rcases h with ((((h | h) | h) | h) | h) | h <;> subst h <;> decide
  omega

/-- Substituted characters are word characters or whitespace. -/
lemma subNonWord_all (l : List Char) :
    ((l.map subNonWord).all fun c => pyWordChar c || pyWs c) = true := by
  induction l with
  | nil => rfl
  | cons c r ih =>
    simp only [List.map_cons, List.all_cons, Bool.and_eq_true, ih, and_true]
    by_cases h : (pyWordChar c || pyWs c) = true
    · rw [subNonWord, if_pos h]; exact h
    · rw [subNonWord, if_neg h]; decide

/-- On a list of word/whitespace characters the substitution is the
identity. -/
lemma map_subNonWord_id {l : List Char}
    (h : (l.all fun c => pyWordChar c || pyWs c) = true) :
    l.map subNonWord = l := by
  induction l with
  | nil => rfl
  | cons c r ih =>
    simp only [List.all_cons, Bool.and_eq_true] at h
    simp only [List.map_cons, subNonWord, if_pos h.1, ih h.2]

/-- On a list of `pyToLower`-fixed characters the lowering map is the
identity. -/
lemma map_toLower_id {l : List Char}
    (h : (l.all fun c => pyToLower c == c) = true) :
    l.map pyToLower = l := by
  induction l with
  | nil => rfl
  | cons c r ih =>
    simp only [List.all_cons, Bool.and_eq_true] at h
    simp only [List.map_cons, eq_of_beq h.1, ih h.2]

/-- The head surviving a `dropWhile` fails the predicate. -/
lemma head?_dropWhile {p : Char → Bool} {l : List Char} {c : Char}
    (h : (l.dropWhile p).head? = some c) : p c = false := by
  induction l with
  | nil => cases h
  | cons a r ih =>
    by_cases ha : p a = true
    · rw [List.dropWhile_cons, if_pos ha] at h
      exact ih h
    · rw [List.dropWhile_cons, if_neg ha] at h
      injection h with h
      subst h
      exact Bool.eq_false_iff.mpr ha

/-- Dropping with `dropWhile` is the identity when the head (if any) fails the
predicate. -/
lemma dropWhile_head_not {p : Char → Bool} {l : List Char}
    (h : ∀ c, l.head? = some c → p c = false) : l.dropWhile p = l := by
  cases l with
  | nil => rfl
  | cons a r =>
    rw [List.dropWhile_cons, if_neg]
    simp [h a rfl]

/-- A nonempty `dropWhile` has the last element of the original list. -/
lemma getLast?_dropWhile {p : Char → Bool} {l : List Char}
    (h : l.dropWhile p ≠ []) : (l.dropWhile p).getLast? = l.getLast? := by
  induction l with
  | nil => exact absurd rfl h
  | cons a r ih =>
    by_cases ha : p a = true
    · rw [List.dropWhile_cons, if_pos ha] at h ⊢
      have hr : r ≠ [] := by
        intro hnil
        subst hnil
        exact h rfl
      rw [ih h]
      cases r with
      | nil => exact absurd rfl hr
      | cons b t => rw [List.getLast?_cons_cons]
    · rw [List.dropWhile_cons, if_neg ha]

/-- The head of a stripped list is not whitespace. -/
lemma head?_stripList {l : List Char} {c : Char}
    (h : (stripList l).head? = some c) : pyWs c = false := by
  unfold stripList at h
  rw [List.head?_reverse] at h
  have hne : (l.dropWhile pyWs).reverse.dropWhile pyWs ≠ [] := by
    intro hnil
    rw [hnil] at h
    cases h
  rw [getLast?_dropWhile hne, List.getLast?_reverse] at h
  exact head?_dropWhile h

/-- The last element of a stripped list is not whitespace. -/
lemma getLast?_stripList {l : List Char} {c : Char}
    (h : (stripList l).getLast? = some c) : pyWs c = false := by
  unfold stripList at h
  rw [List.getLast?_reverse] at h
  exact head?_dropWhile h

/-- Stripping is idempotent. -/
lemma stripList_idem (l : List Char) : stripList (stripList l) = stripList l := by
  have h1 : (stripList l).dropWhile pyWs = stripList l :=
    dropWhile_head_not fun c hc => head?_stripList hc
  have h2 : (stripList l).reverse.dropWhile pyWs = (stripList l).reverse := by
    refine dropWhile_head_not fun c hc => ?_
    rw [List.head?_reverse] at hc
    exact getLast?_stripList hc
  show (((stripList l).dropWhile pyWs).reverse.dropWhile pyWs).reverse = stripList l
  rw [h1, h2, List.reverse_reverse]

/-- An `all` bound is preserved by `dropWhile`. -/
lemma all_dropWhile {p q : Char → Bool} {l : List Char}
    (h : l.all p = true) : (l.dropWhile q).all p = true := by
  induction l with
  | nil => rfl
  | cons a r ih =>
    simp only [List.all_cons, Bool.and_eq_true] at h
    by_cases ha : q a = true
    · rw [List.dropWhile_cons, if_pos ha]
      exact ih h.2
    · rw [List.dropWhile_cons, if_neg ha]
      simp [h.1, h.2]

/-- An `all` bound is preserved by stripping. -/
lemma all_stripList {p : Char → Bool} {l : List Char}
    (h : l.all p = true) : (stripList l).all p = true := by
  unfold stripList
  rw [List.all_reverse]
  apply all_dropWhile
  rw [List.all_reverse]
  exact all_dropWhile h

/-- Every character of a normalized string is a word character or
whitespace, and is fixed by lowering. -/
lemma normalize_text_all (s : String) :
    ((normalize_text s).data.all
      fun c => (pyWordChar c || pyWs c) && (pyToLower c == c)) = true := by
  unfold normalize_text
  by_cases hs : s == ""
  · rw [if_pos hs]; rfl
  · rw [if_neg hs]
    apply all_stripList
    have hsub := subNonWord_all s.data
    rw [List.all_eq_true] at hsub ⊢
    intro x hx
    rw [List.mem_map] at hx
    obtain ⟨y, hy, hxy⟩ := hx
    subst hxy
    have hy2 := hsub y hy
    simp only [Bool.and_eq_true]
    refine ⟨?_, beq_iff_eq.mpr (pyToLower_idem y)⟩
    rcases Bool.or_eq_true _ _ |>.mp hy2 with hw | hw
    · exact Bool.or_eq_true _ _ |>.mpr (Or.inl (pyWordChar_toLower hw))
    · rw [pyWs_toLower hw]
      exact Bool.or_eq_true _ _ |>.mpr (Or.inr hw)

/-- The data of a normalized string is strip-fixed. -/
lemma stripList_normalize (s : String) :
    stripList (normalize_text s).data = (normalize_text s).data := by
  unfold normalize_text
  by_cases hs : s == ""
  · rw [if_pos hs]; rfl
  · rw [if_neg hs]
    exact stripList_idem _

/-- The spec's per-token rule of §4.3: a document token is matched if it
occurs verbatim among the spreadsheet tokens or, when it is a single
character, some spreadsheet token starts with that character. -/
def specTokenMatched (excel_tokens : List (List Char)) (w : List Char) : Bool :=
  excel_tokens.contains w ||
    (w.length == 1 && excel_tokens.any fun t => t.take 1 == w)

/-- The code's counting loop computes exactly the number of document
tokens matched under the spec's per-token rule. -/
lemma matchLoop_eq_countP (eToks : List (List Char)) (dToks : List (List Char)) :
    matchLoop eToks dToks = dToks.countP (specTokenMatched eToks) := by
  induction dToks with
  | nil => rfl
  | cons w ws ih =>
    rw [matchLoop, List.countP_cons, ih]
    have hcond :
        (if eToks.contains w = true then 1
          else if (w.length == 1 && eToks.any fun t => t.take 1 == w) = true then 1
          else 0) =
          (if specTokenMatched eToks w = true then 1 else 0) := by
      by_cases h1 : eToks.contains w = true
      · rw [if_pos h1, if_pos]
        rw [specTokenMatched, h1, Bool.true_or]
      · rw [if_neg h1]
        rw [Bool.not_eq_true] at h1
        by_cases h2 : (w.length == 1 && eToks.any fun t => t.take 1 == w) = true
        · rw [if_pos h2, if_pos]
          rw [specTokenMatched, h1, h2, Bool.or_true]
        · rw [if_neg h2, if_neg]
          rw [Bool.not_eq_true] at h2
          rw [specTokenMatched, h1, h2]
          simp
    rw [hcond]
    omega

/-- When every document token occurs among the excel tokens the loop
counts all of them. -/
lemma matchLoop_all_mem (eToks : List (List Char)) :
    ∀ ws, (∀ w, w ∈ ws → eToks.contains w = true) →
      matchLoop eToks ws = ws.length := by
  intro ws
  induction ws with
  | nil => intro _; rfl
  | cons w rest ih =>
    intro h
    rw [matchLoop, if_pos (h w (List.mem_cons_self w rest)),
      ih fun x hx => h x (List.mem_cons_of_mem w hx), List.length_cons]
    omega

/-- A nonempty token accumulator always produces at least one token. -/
lemma splitWsAcc_ne_nil (l : List Char) :
    ∀ (a : Char) (acc : List Char), splitWsAcc (a :: acc) l ≠ [] := by
  induction l with
  | nil =>
    intro a acc
    rw [splitWsAcc]
    simp
  | cons c r ih =>
    intro a acc
    rw [splitWsAcc]
    by_cases hc : pyWs c = true
    · rw [if_pos hc, if_neg (by simp)]
      simp
    · rw [if_neg hc]
      exact ih c (a :: acc)

/-- A name whose normalized form is nonempty yields at least one token. -/
lemma nameTokens_ne_nil {b : String} (h : normalize_text b ≠ "") :
    nameTokens b ≠ [] := by
  cases hd : (normalize_text b).data with
  | nil =>
    exfalso
    apply h
    have h2 := congrArg String.mk hd
    simpa using h2
  | cons c r =>
    have h3 : (stripList (normalize_text b).data).head? = some c := by
      rw [stripList_normalize, hd]
      rfl
    have hc := head?_stripList h3
    unfold nameTokens pySplit
    rw [hd, splitWsAcc, if_neg (by simp [hc])]
    exact splitWsAcc_ne_nil r c []

/-- C5, counterexample: the names `"!"` and `"!"` are non-null, nonempty
and have identical normalized forms, yet the matcher rejects the pair
(both normalize to the empty token list), refuting "identical normalized
names always match". -/
theorem c5_counterexample :
    ("!" : String) ≠ "" ∧
    normalize_text "!" = normalize_text "!" ∧
    check_name_match (some "!") (some "!") = false := by decide

/-- C5, amended: the matcher rejects null/empty names; its count is the
spec's per-token rule; it accepts exactly when the document name has at
least one token and at least half of its tokens are matched (0.5
inclusive); the two boundary examples hold; and identical normalized
names match provided the normalized form is nonempty (has at least one
token) — without that proviso the reflexivity clause fails, see the
counterexample. -/
theorem c5_name_matcher_rules :
    (∀ e, check_name_match e none = false ∧ check_name_match e (some "") = false ∧
      check_name_match none e = false ∧ check_name_match (some "") e = false) ∧
    (∀ eToks dToks, matchLoop eToks dToks = dToks.countP (specTokenMatched eToks)) ∧
    (∀ s t, check_name_match (some s) (some t) = true ↔
      (s ≠ "" ∧ t ≠ "" ∧ 0 < (nameTokens t).length ∧
        (nameTokens t).length ≤ 2 * matchLoop (nameTokens s) (nameTokens t))) ∧
    check_name_match (some "John Smith") (some "J Smith") = true ∧
    check_name_match (some "John Smith") (some "X Smith") = true ∧
    (∀ a b, normalize_text a = normalize_text b → normalize_text b ≠ "" →
      check_name_match (some a) (some b) = true) := by
  have hiff : ∀ s t, check_name_match (some s) (some t) = true ↔
      (s ≠ "" ∧ t ≠ "" ∧ 0 < (nameTokens t).length ∧
        (nameTokens t).length ≤ 2 * matchLoop (nameTokens s) (nameTokens t)) := by
    intro s t
    by_cases hs : s = ""
    · subst hs
      simp [check_name_match, check_name_match_v, optToVal, pyTruthy]
    · by_cases ht : t = ""
      · subst ht
        simp [check_name_match, check_name_match_v, optToVal, pyTruthy]
      · have hguard : check_name_match (some s) (some t) = nameMatchCore s t := by
          simp [check_name_match, check_name_match_v, optToVal, pyTruthy, pyStr, hs, ht]
        have hcore : nameMatchCore s t = true ↔
            (0 < (nameTokens t).length ∧
              (nameTokens t).length ≤ 2 * matchLoop (nameTokens s) (nameTokens t)) := by
          unfold nameMatchCore
          by_cases hcond : 0 < (nameTokens t).length ∧
              (nameTokens t).length ≤ 2 * matchLoop (nameTokens s) (nameTokens t)
          · simp [hcond]
          · simp [hcond]
        rw [hguard, hcore]
        exact ⟨fun h => ⟨hs, ht, h.1, h.2⟩, fun h => ⟨h.2.2.1, h.2.2.2⟩⟩
  refine ⟨?_, matchLoop_eq_countP, hiff, by decide, by decide, ?_⟩
  · intro e
    refine ⟨?_, ?_, ?_, ?_⟩ <;>
      cases e <;>
        simp [check_name_match, check_name_match_v, optToVal, pyTruthy]
  · intro a b hnorm hne
    have ha : a ≠ "" := by
      intro hae
      apply hne
      rw [← hnorm, hae]
      rfl
    have hb : b ≠ "" := by
      intro hbe
      apply hne
      rw [hbe]
      rfl
    have htoks : nameTokens a = nameTokens b := by
      unfold nameTokens pySplit
      rw [hnorm]
    have hnil := nameTokens_ne_nil hne
    have hlen : 0 < (nameTokens b).length := List.length_pos.mpr hnil
    have hself : matchLoop (nameTokens b) (nameTokens b) = (nameTokens b).length := by
      refine matchLoop_all_mem _ _ fun w hw => ?_
      exact List.elem_eq_true_of_mem hw
    refine (hiff a b).mpr ⟨ha, hb, hlen, ?_⟩
    rw [htoks, hself]
    omega

/-- C5, witness for the amended reflexivity clause: two names with the
same nonempty normalized form match. -/
theorem c5_name_matcher_rules_witness :
    check_name_match (some "John Smith") (some "john smith.") = true :=
  c5_name_matcher_rules.2.2.2.2.2 "John Smith" "john smith." (by decide) (by decide)

/-- C10: the normalizer is idempotent, its output is strip-fixed (no
leading or trailing whitespace), and every output character is a word
character or internal whitespace, fixed by lowering. -/
theorem c10_normalize_idempotent_shape (s : String) :
    normalize_text (normalize_text s) = normalize_text s ∧
    String.mk (stripList (normalize_text s).data) = normalize_text s ∧
    ((normalize_text s).data.all
      fun c => (pyWordChar c || pyWs c) && (pyToLower c == c)) = true := by
  have hall := normalize_text_all s
  have hstrip := stripList_normalize s
  refine ⟨?_, by rw [hstrip], hall⟩
  cases ht : normalize_text s == "" with
  | true =>
    rw [eq_of_beq ht]
    rfl
  | false =>
    have hP : ((normalize_text s).data.all fun c => pyWordChar c || pyWs c) = true := by
      rw [List.all_eq_true] at hall ⊢
      intro x hx
      exact (Bool.and_eq_true _ _ |>.mp (hall x hx)).1
    have hQ : ((normalize_text s).data.all fun c => pyToLower c == c) = true := by
      rw [List.all_eq_true] at hall ⊢
      intro x hx
      exact (Bool.and_eq_true _ _ |>.mp (hall x hx)).2
    generalize hgen : normalize_text s = t at ht hP hQ hstrip ⊢
    unfold normalize_text
    rw [if_neg (by simp [ht])]
    rw [map_subNonWord_id hP, map_toLower_id hQ, hstrip]

